import Mathlib

/-!
Verification of the word-cloud layout engine (`src/lib.rs`).

Shallow embedding conventions:
* `f64` values are modelled as real numbers (`ℝ`); `js_sys::Math::cos/sin`
  are `Real.cos/Real.sin`.
* The occupancy grid `Vec<Vec<bool>>` is `List (List Bool)`; the Rust
  bounds-guarded read `i < grid.len() && j < grid[i].len() && grid[i][j]`
  is `gridGet`, and the guarded write is `setCell` (`List.set` is a no-op
  out of range, exactly like the guarded assignment).
* The cast `f64 as usize` truncates toward zero and clamps negatives to 0,
  modelled by `rustUsize`.  (Rust also saturates at `usize::MAX`; every use
  of the cast here is on the max side immediately clamped by
  `.min(len - 1)`, or on the min side where any value past the grid makes
  the loop range empty, so the saturation point is unobservable.)
* `js_sys::Math::random()` draws are supplied by an oracle `rands : ℕ → ℝ`,
  indexed by the position of the word in the input list.
* The serde-JSON boundary (an external collaborator) is modelled by its
  outcome: `generateLayout` takes an `Except String (List WordItem)`
  and the serialization of the result back to a string is omitted.
-/

open Classical

/-- `WordItem` of the source: one input label. -/
structure WordItem where
  text : String
  weight : ℝ
  color : Option String
  rotate : Option ℝ

/-- `WordPosition` of the source: one placed label. -/
structure WordPosition where
  text : String
  weight : ℝ
  x : ℝ
  y : ℝ
  rotate : ℝ
  color : Option String
  size : Option ℝ

/-- `CloudOptions` of the source (width/height are `u32`). -/
structure CloudOptions where
  width : ℕ
  height : ℕ
  fontFamily : String
  fontWeight : String
  minSize : ℝ
  maxSize : ℝ
  rotationRange : ℝ
  spiral : String

/-- The occupancy grid `Vec<Vec<bool>>`, indexed `[i][j]`. -/
abbrev Grid := List (List Bool)

/-- `grid_size = 4` (fixed cell size). -/
def gridSize : ℕ := 4

/-- Grid construction of `WordCloud::new` / `reset_grid`:
`vec![vec![false; height/4 + 1]; width/4 + 1]`. -/
def resetGrid (width height : ℕ) : Grid :=
  List.replicate (width / gridSize + 1) (List.replicate (height / gridSize + 1) false)

/-- The guarded grid read `i < grid.len() && j < grid[i].len() && grid[i][j]`. -/
def gridGet (g : Grid) (i j : ℕ) : Bool :=
  (g.getD i []).getD j false

/-- The guarded grid write `if i < grid.len() && j < grid[i].len() { grid[i][j] = true }`
(`List.set` is a no-op out of range). -/
def setCell (g : Grid) (i j : ℕ) : Grid :=
  g.set i ((g.getD i []).set j true)

/-- The cast `f64 as usize` (truncation toward zero, negatives to 0). -/
noncomputable def rustUsize (r : ℝ) : ℕ := ⌊r⌋.toNat

/-- Axis-aligned bounding box of a rotated rectangle. -/
structure BBox where
  minX : ℝ
  maxX : ℝ
  minY : ℝ
  maxY : ℝ

/-- The four corners of the rectangle centred at `(x,y)` after rotation,
as computed identically in `check_collision` and `mark_grid_as_occupied`. -/
noncomputable def rotatedCorners (x y width height rotation : ℝ) : List (ℝ × ℝ) :=
  let sinRot := Real.sin rotation
  let cosRot := Real.cos rotation
  let halfWidth := width / 2
  let halfHeight := height / 2
  [(-halfWidth, -halfHeight), (halfWidth, -halfHeight),
   (halfWidth, halfHeight), (-halfWidth, halfHeight)].map
    (fun c => (c.1 * cosRot - c.2 * sinRot + x, c.1 * sinRot + c.2 * cosRot + y))

/-- Minimum of a list of reals.  The source folds `f64::min` with seed
`f64::INFINITY`; over the (always non-empty) corner lists this equals the
plain minimum of the elements. -/
noncomputable def listMin : List ℝ → ℝ
  | [] => 0
  | x :: xs => xs.foldl min x

/-- Maximum of a list of reals (source: fold of `f64::max` seeded with
`f64::NEG_INFINITY`). -/
noncomputable def listMax : List ℝ → ℝ
  | [] => 0
  | x :: xs => xs.foldl max x

/-- The axis-aligned min/max over the four rotated corners
(the shared geometry of `check_collision` and `mark_grid_as_occupied`). -/
noncomputable def bboxOf (x y width height rotation : ℝ) : BBox :=
  let rc := rotatedCorners x y width height rotation
  { minX := listMin (rc.map Prod.fst)
    maxX := listMax (rc.map Prod.fst)
    minY := listMin (rc.map Prod.snd)
    maxY := listMax (rc.map Prod.snd) }

/-- One axis of the grid cell range:
`((mn as usize / grid_size).max(0), ((mx as usize / grid_size) + 1).min(len - 1))`,
shared verbatim between `check_collision` and `mark_grid_as_occupied`. -/
noncomputable def gridRange (len : ℕ) (mn mx : ℝ) : ℕ × ℕ :=
  (max (rustUsize mn / gridSize) 0, min (rustUsize mx / gridSize + 1) (len - 1))

/-- The inclusive index list `lo..=hi` (empty when `lo > hi`). -/
def rangeIncl (lo hi : ℕ) : List ℕ := List.range' lo (hi + 1 - lo)

/-- `check_collision`: true on a grid hit over the covered cell range, or
when the unclamped bounding box leaves `[0,width] × [0,height]`. -/
noncomputable def checkCollision (opts : CloudOptions) (grid : Grid)
    (x y width height rotation : ℝ) : Bool :=
  let bb := bboxOf x y width height rotation
  let rx := gridRange grid.length bb.minX bb.maxX
  let ry := gridRange (grid.getD 0 []).length bb.minY bb.maxY
  let hit := (rangeIncl rx.1 rx.2).any fun i =>
    (rangeIncl ry.1 ry.2).any fun j => gridGet grid i j
  if hit then true
  else if bb.minX < 0 ∨ bb.maxX > (opts.width : ℝ) ∨
      bb.minY < 0 ∨ bb.maxY > (opts.height : ℝ) then true
  else false

/-- `mark_grid_as_occupied`: same geometry, sets every covered cell. -/
noncomputable def markGridAsOccupied (grid : Grid)
    (x y width height rotation : ℝ) : Grid :=
  let bb := bboxOf x y width height rotation
  let rx := gridRange grid.length bb.minX bb.maxX
  let ry := gridRange (grid.getD 0 []).length bb.minY bb.maxY
  (rangeIncl rx.1 rx.2).foldl (fun g i =>
    (rangeIncl ry.1 ry.2).foldl (fun g' j => setCell g' i j) g) grid

/-- The branchless Rust closure `sign` of `find_position_for_word`
(`-1.0` for negatives, else `1.0`). -/
noncomputable def rustSign (n : ℝ) : ℝ := if n < 0 then -1 else 1

/-- `dt`: `2.0` for `"rectangular"`, otherwise the step `0.1`. -/
noncomputable def spiralDt (spiral : String) : ℝ :=
  if spiral = "rectangular" then 2 else 0.1

/-- The candidate position computed from the current spiral state `(a, t)`.
For a spiral kind that is neither `"archimedean"` nor `"rectangular"` the
source's `if/else if` chain leaves `(x, y)` at the anchor. -/
noncomputable def spiralPos (spiral : String) (cx cy a t : ℝ) : ℝ × ℝ :=
  if spiral = "archimedean" then
    (cx + a * Real.cos t, cy + a * Real.sin t)
  else if spiral = "rectangular" then
    let k : ℤ := ⌊t / 2⌋
    if k % 2 = 0 then
      (cx + rustSign (Real.cos t) * a, cy + rustSign (Real.sin t) * a)
    else
      (cx + rustSign (Real.sin t) * a, cy + rustSign (Real.cos t) * a)
  else (cx, cy)

/-- The `a += step` update, executed only inside the two recognized
spiral branches. -/
noncomputable def nextA (spiral : String) (a : ℝ) : ℝ :=
  if spiral = "archimedean" then a + 0.1
  else if spiral = "rectangular" then a + 0.1
  else a

/-- The attempt loop of `find_position_for_word`, with remaining fuel and
the mutable spiral state `(a, t)` passed explicitly. -/
noncomputable def findPosGo (opts : CloudOptions) (grid : Grid)
    (cx cy wordWidth wordHeight rotation : ℝ) :
    ℕ → ℝ → ℝ → Option (ℝ × ℝ)
  | 0, _, _ => none
  | fuel + 1, a, t =>
    let xy := spiralPos opts.spiral cx cy a t
    if checkCollision opts grid xy.1 xy.2 wordWidth wordHeight rotation = false then
      some xy
    else
      findPosGo opts grid cx cy wordWidth wordHeight rotation fuel
        (nextA opts.spiral a) (t + spiralDt opts.spiral)

/-- `find_position_for_word`: up to 1000 attempts from state `a = 0, t = 0`. -/
noncomputable def findPositionForWord (opts : CloudOptions) (grid : Grid)
    (cx cy wordWidth wordHeight rotation : ℝ) : Option (ℝ × ℝ) :=
  findPosGo opts grid cx cy wordWidth wordHeight rotation 1000 0 0

/-- The spiral radius `a` after `n` completed iterations. -/
noncomputable def spiralA (spiral : String) : ℕ → ℝ
  | 0 => 0
  | n + 1 => nextA spiral (spiralA spiral n)

/-- The spiral parameter `t` after `n` completed iterations. -/
noncomputable def spiralT (spiral : String) : ℕ → ℝ
  | 0 => 0
  | n + 1 => spiralT spiral n + spiralDt spiral

/-- The `n`-th candidate position probed by `find_position_for_word`. -/
noncomputable def spiralCandidate (spiral : String) (cx cy : ℝ) (n : ℕ) : ℝ × ℝ :=
  spiralPos spiral cx cy (spiralA spiral n) (spiralT spiral n)

/-- The per-word font size (`generate_layout`, lines 186-192). -/
noncomputable def sizeFor (opts : CloudOptions) (minWeight maxWeight weight : ℝ) : ℝ :=
  if maxWeight = minWeight then opts.maxSize
  else opts.minSize + ((weight - minWeight) / (maxWeight - minWeight))
    * (opts.maxSize - opts.minSize)

/-- The crude extent estimate (`generate_layout`, lines 196-197):
`(size * 0.6 * text.len() as f64, size)`.  Rust `String::len` is the
UTF-8 byte length, i.e. `String.utf8ByteSize`. -/
noncomputable def estimateExtent (text : String) (size : ℝ) : ℝ × ℝ :=
  (size * 0.6 * (text.utf8ByteSize : ℝ), size)

/-- Rotation resolution (`generate_layout`, lines 200-206); `rand` is the
oracle value standing for `Math::random()`. -/
noncomputable def resolveRotation (opts : CloudOptions) (word : WordItem)
    (rand : ℝ) : ℝ :=
  match word.rotate with
  | some r => r
  | none =>
    if opts.rotationRange > 0 then (rand * 2 - 1) * opts.rotationRange
    else 0

/-- The per-word placement loop of `generate_layout`:  compute size,
extent and rotation, search for a position, commit on success, silently
skip on failure. -/
noncomputable def placeLoop (opts : CloudOptions) (minWeight maxWeight cx cy : ℝ)
    (rands : ℕ → ℝ) : Grid → ℕ → List WordItem → List WordPosition
  | _, _, [] => []
  | grid, n, word :: rest =>
    let size := sizeFor opts minWeight maxWeight word.weight
    let ext := estimateExtent word.text size
    let rotation := resolveRotation opts word (rands n)
    match findPositionForWord opts grid cx cy ext.1 ext.2 rotation with
    | some xy =>
      { text := word.text, weight := word.weight, x := xy.1, y := xy.2
        rotate := rotation, color := word.color, size := some size } ::
        placeLoop opts minWeight maxWeight cx cy rands
          (markGridAsOccupied grid xy.1 xy.2 ext.1 ext.2 rotation) (n + 1) rest
    | none => placeLoop opts minWeight maxWeight cx cy rands grid (n + 1) rest

/-- `generate_layout` after a successful parse: reset the grid, compute the
weight extremes (the source folds `f64::max`/`f64::min` seeded `∓∞` over all
words; on a non-empty list this equals a fold seeded with the head's weight),
then place each word in input order. -/
noncomputable def generateLayoutWords (opts : CloudOptions) (rands : ℕ → ℝ)
    (words : List WordItem) : List WordPosition :=
  match words with
  | [] => []
  | w0 :: _ =>
    let maxWeight := words.foldl (fun m w => max m w.weight) w0.weight
    let minWeight := words.foldl (fun m w => min m w.weight) w0.weight
    let cx := (opts.width : ℝ) / 2
    let cy := (opts.height : ℝ) / 2
    placeLoop opts minWeight maxWeight cx cy rands
      (resetGrid opts.width opts.height) 0 words

/-- `generate_layout` including the parse boundary: a parse failure yields
the empty result (the source returns the literal `"[]"`). -/
noncomputable def generateLayout (opts : CloudOptions) (rands : ℕ → ℝ)
    (input : Except String (List WordItem)) : List WordPosition :=
  match input with
  | .error _ => []
  | .ok words => generateLayoutWords opts rands words

/-! ### Basic grid lemmas -/

theorem length_resetGrid (w h : ℕ) :
    (resetGrid w h).length = w / gridSize + 1 := by
  simp [resetGrid]

theorem getD_replicate {α : Type} (n m : ℕ) (x d : α) :
    (List.replicate n x).getD m d = if m < n then x else d := by
  rw [List.getD_eq_getElem?_getD, List.getElem?_replicate]
  split <;> simp

theorem gridGet_resetGrid (w h i j : ℕ) : gridGet (resetGrid w h) i j = false := by
  unfold gridGet resetGrid
  rw [getD_replicate]
  split
  · rw [getD_replicate]; split <;> rfl
  · rfl

/-- Well-formedness of a grid for a given canvas configuration: the
dimensions produced by `reset_grid` and preserved by marking. -/
def gridWF (opts : CloudOptions) (g : Grid) : Prop :=
  g.length = opts.width / gridSize + 1 ∧
    ∀ i, i < g.length → (g.getD i []).length = opts.height / gridSize + 1

theorem gridWF_resetGrid (opts : CloudOptions) :
    gridWF opts (resetGrid opts.width opts.height) := by
  constructor
  · simp [resetGrid]
  · intro i hi
    simp only [resetGrid, List.length_replicate] at hi
    unfold resetGrid
    rw [getD_replicate, if_pos hi]
    simp

theorem length_setCell (g : Grid) (a b : ℕ) : (setCell g a b).length = g.length := by
  simp [setCell]

theorem getD_setCell (g : Grid) (a b i : ℕ) :
    (setCell g a b).getD i [] =
      if a = i ∧ i < g.length then (g.getD i []).set b true else g.getD i [] := by
  unfold setCell
  rw [List.getD_eq_getElem?_getD, List.getElem?_set]
  by_cases hai : a = i
  · subst hai
    by_cases hl : a < g.length
    · rw [if_pos rfl, if_pos hl, if_pos ⟨rfl, hl⟩]
      rfl
    · rw [if_pos rfl, if_neg hl, if_neg (fun hc => hl hc.2)]
      rw [List.getD_eq_getElem?_getD, List.getElem?_eq_none (by omega)]
  · rw [if_neg hai, if_neg (fun hc => hai hc.1), List.getD_eq_getElem?_getD]

theorem rowLen_setCell (g : Grid) (a b i : ℕ) :
    ((setCell g a b).getD i []).length = (g.getD i []).length := by
  rw [getD_setCell]
  split <;> simp

theorem rowGet_set (l : List Bool) (b j : ℕ) :
    (l.set b true).getD j false = true ↔
      (l.getD j false = true ∨ (b = j ∧ j < l.length)) := by
  rw [List.getD_eq_getElem?_getD, List.getElem?_set, List.getD_eq_getElem?_getD]
  by_cases hbj : b = j
  · subst hbj
    by_cases hl : b < l.length
    · simp [hl]
    · rw [if_pos rfl, if_neg hl, List.getElem?_eq_none (by omega)]
      simp [hl]
  · simp [hbj]

theorem gridGet_setCell (g : Grid) (a b i j : ℕ) :
    gridGet (setCell g a b) i j = true ↔
      (gridGet g i j = true ∨
        (a = i ∧ b = j ∧ i < g.length ∧ j < (g.getD i []).length)) := by
  unfold gridGet
  rw [getD_setCell]
  split
  next h =>
    obtain ⟨hai, hil⟩ := h
    subst hai
    rw [rowGet_set]
    constructor
    · rintro (hg | ⟨hb, hj⟩)
      · exact Or.inl hg
      · exact Or.inr ⟨rfl, hb, hil, hj⟩
    · rintro (hg | ⟨_, hb, _, hj⟩)
      · exact Or.inl hg
      · exact Or.inr ⟨hb, hj⟩
  next h =>
    constructor
    · exact Or.inl
    · rintro (hg | ⟨h1, _, h2, _⟩)
      · exact hg
      · exact absurd ⟨h1, h2⟩ h

theorem mem_rangeIncl (m lo hi : ℕ) : m ∈ rangeIncl lo hi ↔ lo ≤ m ∧ m ≤ hi := by
  unfold rangeIncl
  rw [List.mem_range'_1]
  omega

/-! ### Marking characterization -/

theorem lt_length_of_rowLen_pos (g : Grid) (i : ℕ)
    (h : 0 < (g.getD i []).length) : i < g.length := by
  by_contra hc
  rw [List.getD_eq_getElem?_getD, List.getElem?_eq_none (by omega)] at h
  simp at h

theorem length_foldl_setCellRow (js : List ℕ) (g : Grid) (a : ℕ) :
    (js.foldl (fun g' j => setCell g' a j) g).length = g.length := by
  induction js generalizing g with
  | nil => rfl
  | cons j js ih => rw [List.foldl_cons, ih, length_setCell]

theorem rowLen_foldl_setCellRow (js : List ℕ) (g : Grid) (a i : ℕ) :
    ((js.foldl (fun g' j => setCell g' a j) g).getD i []).length
      = (g.getD i []).length := by
  induction js generalizing g with
  | nil => rfl
  | cons j js ih => rw [List.foldl_cons, ih, rowLen_setCell]

theorem gridGet_foldl_setCellRow (js : List ℕ) (g : Grid) (a i j : ℕ) :
    gridGet (js.foldl (fun g' j' => setCell g' a j') g) i j = true ↔
      (gridGet g i j = true ∨
        (a = i ∧ j ∈ js ∧ j < (g.getD i []).length)) := by
  induction js generalizing g with
  | nil => simp
  | cons j0 js ih =>
    rw [List.foldl_cons, ih, gridGet_setCell, rowLen_setCell]
    constructor
    · rintro ((hg | ⟨ha, hb, _, hj⟩) | ⟨ha, hj, hlen⟩)
      · exact Or.inl hg
      · exact Or.inr ⟨ha, by rw [← hb]; exact List.mem_cons_self _ _, hj⟩
      · exact Or.inr ⟨ha, List.mem_cons_of_mem _ hj, hlen⟩
    · rintro (hg | ⟨ha, hj, hlen⟩)
      · exact Or.inl (Or.inl hg)
      · rcases List.mem_cons.mp hj with hh | hh
        · exact Or.inl (Or.inr ⟨ha, hh.symm,
            lt_length_of_rowLen_pos g i (by omega), by omega⟩)
        · exact Or.inr ⟨ha, hh, hlen⟩

theorem length_foldl_setCellGrid (is js : List ℕ) (g : Grid) :
    (is.foldl (fun g' i' => js.foldl (fun g'' j' => setCell g'' i' j') g') g).length
      = g.length := by
  induction is generalizing g with
  | nil => rfl
  | cons i is ih => rw [List.foldl_cons, ih, length_foldl_setCellRow]

theorem rowLen_foldl_setCellGrid (is js : List ℕ) (g : Grid) (i : ℕ) :
    ((is.foldl (fun g' i' => js.foldl (fun g'' j' => setCell g'' i' j') g') g).getD i []).length
      = (g.getD i []).length := by
  induction is generalizing g with
  | nil => rfl
  | cons i0 is ih => rw [List.foldl_cons, ih, rowLen_foldl_setCellRow]

theorem gridGet_foldl_setCellGrid (is js : List ℕ) (g : Grid) (i j : ℕ) :
    gridGet (is.foldl (fun g' i' => js.foldl (fun g'' j' => setCell g'' i' j') g') g) i j = true ↔
      (gridGet g i j = true ∨
        (i ∈ is ∧ j ∈ js ∧ j < (g.getD i []).length)) := by
  induction is generalizing g with
  | nil => simp
  | cons i0 is ih =>
    rw [List.foldl_cons, ih, gridGet_foldl_setCellRow, rowLen_foldl_setCellRow]
    constructor
    · rintro ((hg | ⟨ha, hj, hlen⟩) | ⟨hi, hj, hlen⟩)
      · exact Or.inl hg
      · exact Or.inr ⟨by rw [← ha]; exact List.mem_cons_self _ _, hj, hlen⟩
      · exact Or.inr ⟨List.mem_cons_of_mem _ hi, hj, hlen⟩
    · rintro (hg | ⟨hi, hj, hlen⟩)
      · exact Or.inl (Or.inl hg)
      · rcases List.mem_cons.mp hi with hh | hh
        · exact Or.inl (Or.inr ⟨hh.symm, hj, hlen⟩)
        · exact Or.inr ⟨hh, hj, hlen⟩

/-- The cell range a committed placement covers, in terms of the canvas
configuration (equal to the ranges computed inside `check_collision` and
`mark_grid_as_occupied` on any well-formed grid). -/
def coveredCell (opts : CloudOptions) (x y width height rotation : ℝ) (i j : ℕ) : Prop :=
  let bb := bboxOf x y width height rotation
  let rx := gridRange (opts.width / gridSize + 1) bb.minX bb.maxX
  let ry := gridRange (opts.height / gridSize + 1) bb.minY bb.maxY
  rx.1 ≤ i ∧ i ≤ rx.2 ∧ ry.1 ≤ j ∧ j ≤ ry.2

theorem length_pos_of_wf (opts : CloudOptions) (g : Grid) (hwf : gridWF opts g) :
    0 < g.length := by
  rw [hwf.1]; exact Nat.succ_pos _

theorem row0Len_of_wf (opts : CloudOptions) (g : Grid) (hwf : gridWF opts g) :
    (g.getD 0 []).length = opts.height / gridSize + 1 :=
  hwf.2 0 (length_pos_of_wf opts g hwf)

theorem gridWF_mark (opts : CloudOptions) (g : Grid) (hwf : gridWF opts g)
    (x y width height rotation : ℝ) :
    gridWF opts (markGridAsOccupied g x y width height rotation) := by
  unfold markGridAsOccupied
  constructor
  · rw [length_foldl_setCellGrid, hwf.1]
  · intro i hi
    rw [length_foldl_setCellGrid] at hi
    rw [rowLen_foldl_setCellGrid]
    exact hwf.2 i hi

theorem gridGet_mark (opts : CloudOptions) (g : Grid) (hwf : gridWF opts g)
    (x y width height rotation : ℝ) (i j : ℕ) :
    gridGet (markGridAsOccupied g x y width height rotation) i j = true ↔
      (gridGet g i j = true ∨ coveredCell opts x y width height rotation i j) := by
  simp only [markGridAsOccupied, coveredCell]
  rw [hwf.1, row0Len_of_wf opts g hwf, gridGet_foldl_setCellGrid]
  simp only [mem_rangeIncl]
  constructor
  · rintro (hg | ⟨⟨h1, h2⟩, ⟨h3, h4⟩, _⟩)
    · exact Or.inl hg
    · exact Or.inr ⟨h1, h2, h3, h4⟩
  · rintro (hg | ⟨h1, h2, h3, h4⟩)
    · exact Or.inl hg
    · refine Or.inr ⟨⟨h1, h2⟩, ⟨h3, h4⟩, ?_⟩
      have hile : i ≤ opts.width / gridSize + 1 - 1 :=
        le_trans h2 (min_le_right _ _)
      have hi : i < g.length := by
        rw [hwf.1]
        exact Nat.lt_succ_of_le (by simpa using hile)
      have hjle : j ≤ opts.height / gridSize + 1 - 1 :=
        le_trans h4 (min_le_right _ _)
      rw [hwf.2 i hi]
      exact Nat.lt_succ_of_le (by simpa using hjle)

/-! ### `check_collision` characterization -/

/-- The rotated bounding box lies inside `[0, width] × [0, height]`
(the negation of the boundary test of `check_collision`). -/
def bboxInCanvas (opts : CloudOptions) (x y width height rotation : ℝ) : Prop :=
  0 ≤ (bboxOf x y width height rotation).minX ∧
    (bboxOf x y width height rotation).maxX ≤ (opts.width : ℝ) ∧
    0 ≤ (bboxOf x y width height rotation).minY ∧
    (bboxOf x y width height rotation).maxY ≤ (opts.height : ℝ)

theorem check_shape (b : Bool) (p : Prop) [Decidable p] :
    (if b then (true : Bool) else if p then true else false) = false ↔
      (b = false ∧ ¬p) := by
  by_cases hb : b <;> by_cases hp : p <;> simp [hb, hp]

theorem checkCollision_eq_false_iff (opts : CloudOptions) (g : Grid)
    (hwf : gridWF opts g) (x y width height rotation : ℝ) :
    checkCollision opts g x y width height rotation = false ↔
      ((∀ i j, coveredCell opts x y width height rotation i j → gridGet g i j = false) ∧
        bboxInCanvas opts x y width height rotation) := by
  simp only [checkCollision]
  rw [hwf.1, row0Len_of_wf opts g hwf, check_shape]
  constructor
  · rintro ⟨hhit, hoob⟩
    constructor
    · intro i j hcov
      simp only [coveredCell] at hcov
      obtain ⟨h1, h2, h3, h4⟩ := hcov
      rw [List.any_eq_false] at hhit
      have hi := hhit i ((mem_rangeIncl i _ _).mpr ⟨h1, h2⟩)
      rw [Bool.not_eq_true, List.any_eq_false] at hi
      have hj := hi j ((mem_rangeIncl j _ _).mpr ⟨h3, h4⟩)
      rwa [Bool.not_eq_true] at hj
    · unfold bboxInCanvas
      push_neg at hoob
      exact ⟨hoob.1, hoob.2.1, hoob.2.2.1, hoob.2.2.2⟩
  · rintro ⟨hcells, hbox⟩
    constructor
    · rw [List.any_eq_false]
      intro i hi
      rw [Bool.not_eq_true, List.any_eq_false]
      intro j hj
      rw [Bool.not_eq_true]
      rw [mem_rangeIncl] at hi hj
      exact hcells i j ⟨hi.1, hi.2, hj.1, hj.2⟩
    · intro hcontra
      obtain ⟨hb1, hb2, hb3, hb4⟩ := hbox
      rcases hcontra with hx | hx | hx | hx <;> linarith
  

theorem checkCollision_false_inCanvas (opts : CloudOptions) (g : Grid)
    (x y width height rotation : ℝ)
    (hc : checkCollision opts g x y width height rotation = false) :
    bboxInCanvas opts x y width height rotation := by
  simp only [checkCollision] at hc
  rw [check_shape] at hc
  unfold bboxInCanvas
  have hoob := hc.2
  push_neg at hoob
  exact ⟨hoob.1, hoob.2.1, hoob.2.2.1, hoob.2.2.2⟩

/-! ### `find_position_for_word` lemmas -/

theorem findPosGo_some_check (opts : CloudOptions) (g : Grid)
    (cx cy ww wh rot : ℝ) :
    ∀ (fuel : ℕ) (a t : ℝ) (xy : ℝ × ℝ),
      findPosGo opts g cx cy ww wh rot fuel a t = some xy →
      checkCollision opts g xy.1 xy.2 ww wh rot = false := by
  intro fuel
  induction fuel with
  | zero => intro a t xy hfp; exact Option.noConfusion hfp
  | succ fuel ih =>
    intro a t xy hfp
    rw [findPosGo] at hfp
    split at hfp
    next hchk =>
      obtain rfl : spiralPos opts.spiral cx cy a t = xy := Option.some.inj hfp
      exact hchk
    next => exact ih _ _ _ hfp

theorem spiralA_succ (s : String) (k : ℕ) :
    spiralA s (k + 1) = nextA s (spiralA s k) := rfl

theorem spiralT_succ (s : String) (k : ℕ) :
    spiralT s (k + 1) = spiralT s k + spiralDt s := rfl

theorem findPosGo_none_iff (opts : CloudOptions) (g : Grid)
    (cx cy ww wh rot : ℝ) :
    ∀ (fuel k : ℕ),
      findPosGo opts g cx cy ww wh rot fuel
          (spiralA opts.spiral k) (spiralT opts.spiral k) = none ↔
        ∀ m, k ≤ m → m < k + fuel →
          checkCollision opts g (spiralCandidate opts.spiral cx cy m).1
            (spiralCandidate opts.spiral cx cy m).2 ww wh rot = true := by
  intro fuel
  induction fuel with
  | zero =>
    intro k
    constructor
    · intro _ m h1 h2; omega
    · intro _; rfl
  | succ fuel ih =>
    intro k
    rw [findPosGo]
    split
    next hchk =>
      constructor
      · intro hcontra; exact Option.noConfusion hcontra
      · intro hall
        have := hall k le_rfl (by omega)
        rw [spiralCandidate] at this
        rw [hchk] at this
        exact Bool.noConfusion this
    next hchk =>
      rw [← spiralA_succ, ← spiralT_succ, ih (k + 1)]
      constructor
      · intro hall m h1 h2
        rcases Nat.eq_or_lt_of_le h1 with heq | hlt
        · subst heq
          rw [spiralCandidate]
          rw [Bool.not_eq_false] at hchk
          exact hchk
        · exact hall m hlt (by omega)
      · intro hall m h1 h2
        exact hall m (by omega) (by omega)

theorem findPosGo_some_cand (opts : CloudOptions) (g : Grid)
    (cx cy ww wh rot : ℝ) :
    ∀ (fuel k : ℕ) (xy : ℝ × ℝ),
      findPosGo opts g cx cy ww wh rot fuel
          (spiralA opts.spiral k) (spiralT opts.spiral k) = some xy →
        ∃ m, k ≤ m ∧ m < k + fuel ∧ xy = spiralCandidate opts.spiral cx cy m ∧
          checkCollision opts g xy.1 xy.2 ww wh rot = false := by
  intro fuel
  induction fuel with
  | zero => intro k xy hfp; exact Option.noConfusion hfp
  | succ fuel ih =>
    intro k xy hfp
    rw [findPosGo] at hfp
    split at hfp
    next hchk =>
      obtain rfl : spiralPos opts.spiral cx cy (spiralA opts.spiral k)
          (spiralT opts.spiral k) = xy := Option.some.inj hfp
      exact ⟨k, le_rfl, by omega, rfl, hchk⟩
    next =>
      rw [← spiralA_succ, ← spiralT_succ] at hfp
      obtain ⟨m, h1, h2, h3, h4⟩ := ih (k + 1) xy hfp
      exact ⟨m, by omega, by omega, h3, h4⟩

theorem findPositionForWord_some_cand (opts : CloudOptions) (g : Grid)
    (cx cy ww wh rot : ℝ) (xy : ℝ × ℝ)
    (hfp : findPositionForWord opts g cx cy ww wh rot = some xy) :
    ∃ m, m < 1000 ∧ xy = spiralCandidate opts.spiral cx cy m ∧
      checkCollision opts g xy.1 xy.2 ww wh rot = false := by
  unfold findPositionForWord at hfp
  obtain ⟨m, _, h2, h3, h4⟩ :=
    findPosGo_some_cand opts g cx cy ww wh rot 1000 0 xy (by exact hfp)
  exact ⟨m, by omega, h3, h4⟩

theorem findPositionForWord_none_iff (opts : CloudOptions) (g : Grid)
    (cx cy ww wh rot : ℝ) :
    findPositionForWord opts g cx cy ww wh rot = none ↔
      ∀ m, m < 1000 →
        checkCollision opts g (spiralCandidate opts.spiral cx cy m).1
          (spiralCandidate opts.spiral cx cy m).2 ww wh rot = true := by
  have h := findPosGo_none_iff opts g cx cy ww wh rot 1000 0
  simp only [show spiralA opts.spiral 0 = 0 from rfl,
    show spiralT opts.spiral 0 = 0 from rfl] at h
  unfold findPositionForWord
  rw [h]
  constructor
  · intro hall m hm; exact hall m (by omega) (by omega)
  · intro hall m _ hm; exact hall m (by omega)

/-! ### Placement loop invariants -/

/-- The estimated extent width of a placed label, reconstructed from its
stored size and text (for placed labels this equals the `word_width` used
during the run). -/
noncomputable def placedW (p : WordPosition) : ℝ :=
  p.size.getD 0 * 0.6 * (p.text.utf8ByteSize : ℝ)

/-- The estimated extent height of a placed label (its stored size). -/
noncomputable def placedH (p : WordPosition) : ℝ :=
  p.size.getD 0

theorem gridGet_mark_mono (opts : CloudOptions) (g : Grid) (hwf : gridWF opts g)
    (x y width height rotation : ℝ) (i j : ℕ)
    (h : gridGet g i j = true) :
    gridGet (markGridAsOccupied g x y width height rotation) i j = true :=
  (gridGet_mark opts g hwf x y width height rotation i j).mpr (Or.inl h)

theorem placeLoop_mem (opts : CloudOptions) (minW maxW cx cy : ℝ) (rands : ℕ → ℝ) :
    ∀ (ws : List WordItem) (g : Grid) (n : ℕ) (p : WordPosition),
      gridWF opts g →
      p ∈ placeLoop opts minW maxW cx cy rands g n ws →
      p.size.isSome = true ∧
      bboxInCanvas opts p.x p.y (placedW p) (placedH p) p.rotate ∧
      (∀ i j, coveredCell opts p.x p.y (placedW p) (placedH p) p.rotate i j →
        gridGet g i j = false) := by
  intro ws
  induction ws with
  | nil =>
    intro g n p _ hp
    simp [placeLoop] at hp
  | cons word rest ih =>
    intro g n p hwf hp
    simp only [placeLoop] at hp
    split at hp
    next xy hfp =>
      rcases List.mem_cons.mp hp with heq | hmem
      · subst heq
        have hchk : checkCollision opts g xy.1 xy.2
            (estimateExtent word.text (sizeFor opts minW maxW word.weight)).1
            (estimateExtent word.text (sizeFor opts minW maxW word.weight)).2
            (resolveRotation opts word (rands n)) = false := by
          unfold findPositionForWord at hfp
          exact findPosGo_some_check opts g cx cy _ _ _ 1000 0 0 xy hfp
        refine ⟨rfl, ?_, ?_⟩
        · exact checkCollision_false_inCanvas opts g _ _ _ _ _ hchk
        · intro i j hcov
          exact ((checkCollision_eq_false_iff opts g hwf _ _ _ _ _).mp hchk).1 i j hcov
      · have hres := ih (markGridAsOccupied g xy.1 xy.2
          (estimateExtent word.text (sizeFor opts minW maxW word.weight)).1
          (estimateExtent word.text (sizeFor opts minW maxW word.weight)).2
          (resolveRotation opts word (rands n))) (n + 1) p
          (gridWF_mark opts g hwf _ _ _ _ _) hmem
        refine ⟨hres.1, hres.2.1, ?_⟩
        intro i j hcov
        have hmark := hres.2.2 i j hcov
        by_contra hg
        rw [Bool.not_eq_false] at hg
        have hmono := gridGet_mark_mono opts g hwf xy.1 xy.2
          (estimateExtent word.text (sizeFor opts minW maxW word.weight)).1
          (estimateExtent word.text (sizeFor opts minW maxW word.weight)).2
          (resolveRotation opts word (rands n)) i j hg
        rw [hmark] at hmono
        exact Bool.noConfusion hmono
    next hfp =>
      exact ih g (n + 1) p hwf hp

theorem placeLoop_pairwise (opts : CloudOptions) (minW maxW cx cy : ℝ)
    (rands : ℕ → ℝ) :
    ∀ (ws : List WordItem) (g : Grid) (n : ℕ),
      gridWF opts g →
      (placeLoop opts minW maxW cx cy rands g n ws).Pairwise
        (fun p q => ∀ i j,
          ¬(coveredCell opts p.x p.y (placedW p) (placedH p) p.rotate i j ∧
            coveredCell opts q.x q.y (placedW q) (placedH q) q.rotate i j)) := by
  intro ws
  induction ws with
  | nil =>
    intro g n _
    simp [placeLoop]
  | cons word rest ih =>
    intro g n hwf
    simp only [placeLoop]
    split
    next xy hfp =>
      refine List.Pairwise.cons ?_ (ih _ (n + 1) (gridWF_mark opts g hwf _ _ _ _ _))
      intro q hq i j hand
      obtain ⟨hcp, hcq⟩ := hand
      have hres := placeLoop_mem opts minW maxW cx cy rands rest
        (markGridAsOccupied g xy.1 xy.2
          (estimateExtent word.text (sizeFor opts minW maxW word.weight)).1
          (estimateExtent word.text (sizeFor opts minW maxW word.weight)).2
          (resolveRotation opts word (rands n))) (n + 1) q
        (gridWF_mark opts g hwf _ _ _ _ _) hq
      have hfalse := hres.2.2 i j hcq
      have htrue : gridGet (markGridAsOccupied g xy.1 xy.2
          (estimateExtent word.text (sizeFor opts minW maxW word.weight)).1
          (estimateExtent word.text (sizeFor opts minW maxW word.weight)).2
          (resolveRotation opts word (rands n))) i j = true :=
        (gridGet_mark opts g hwf _ _ _ _ _ i j).mpr (Or.inr hcp)
      rw [hfalse] at htrue
      exact Bool.noConfusion htrue
    next hfp =>
      exact ih g (n + 1) hwf

/-! ### Bounding box at rotation zero -/

theorem minXpat (u v : ℝ) : min (min (min u v) v) u = min u v := by
  rw [min_eq_left (min_le_right u v), min_eq_left (min_le_left u v)]

theorem maxXpat (u v : ℝ) : max (max (max u v) v) u = max u v := by
  rw [max_eq_left (le_max_right u v), max_eq_left (le_max_left u v)]

theorem minYpat (u v : ℝ) : min (min (min u u) v) v = min u v := by
  rw [min_self, min_eq_left (min_le_right u v)]

theorem maxYpat (u v : ℝ) : max (max (max u u) v) v = max u v := by
  rw [max_self, max_eq_left (le_max_right u v)]

theorem bboxOf_rot_zero (x y w h : ℝ) :
    bboxOf x y w h 0 =
      ⟨min (x - w / 2) (x + w / 2), max (x - w / 2) (x + w / 2),
        min (y - h / 2) (y + h / 2), max (y - h / 2) (y + h / 2)⟩ := by
  unfold bboxOf rotatedCorners listMin listMax
  simp only [Real.cos_zero, Real.sin_zero, mul_one, mul_zero, sub_zero, zero_add,
    List.map_cons, List.map_nil, List.foldl_cons, List.foldl_nil]
  have e1 : -(w / 2) + x = x - w / 2 := by ring
  have e2 : w / 2 + x = x + w / 2 := by ring
  have e3 : -(h / 2) + y = y - h / 2 := by ring
  have e4 : h / 2 + y = y + h / 2 := by ring
  rw [e1, e2, e3, e4]
  rw [minXpat, maxXpat, minYpat, maxYpat]

/-- On the freshly reset (all-false) grid, the collision test reduces to
the boundary test alone. -/
theorem checkCollision_resetGrid (opts : CloudOptions) (x y w h rot : ℝ) :
    checkCollision opts (resetGrid opts.width opts.height) x y w h rot = false ↔
      bboxInCanvas opts x y w h rot := by
  rw [checkCollision_eq_false_iff opts _ (gridWF_resetGrid opts)]
  constructor
  · exact fun hc => hc.2
  · intro hb
    exact ⟨fun i j _ => gridGet_resetGrid _ _ i j, hb⟩

/-! ### Size mapping lemmas -/

theorem sizeFor_uniform (opts : CloudOptions) (minW maxW wt : ℝ)
    (h : minW = maxW) : sizeFor opts minW maxW wt = opts.maxSize := by
  unfold sizeFor
  rw [if_pos h.symm]

theorem sizeFor_interp (opts : CloudOptions) (minW maxW wt : ℝ)
    (h : maxW ≠ minW) :
    sizeFor opts minW maxW wt =
      opts.minSize + ((wt - minW) / (maxW - minW)) * (opts.maxSize - opts.minSize) := by
  unfold sizeFor
  rw [if_neg h]

theorem sizeFor_bounds (opts : CloudOptions) (minW maxW wt : ℝ)
    (hle : opts.minSize ≤ opts.maxSize) (h1 : minW ≤ wt) (h2 : wt ≤ maxW) :
    opts.minSize ≤ sizeFor opts minW maxW wt ∧
      sizeFor opts minW maxW wt ≤ opts.maxSize := by
  unfold sizeFor
  split
  next => exact ⟨hle, le_refl _⟩
  next hne =>
    have hlt : minW < maxW :=
      lt_of_le_of_ne (le_trans h1 h2) (fun hc => hne hc.symm)
    have hr0 : 0 ≤ (wt - minW) / (maxW - minW) :=
      div_nonneg (by linarith) (by linarith)
    have hr1 : (wt - minW) / (maxW - minW) ≤ 1 := by
      rw [div_le_one (by linarith)]
      linarith
    constructor <;> nlinarith [hr0, hr1]

/-! ### Order preservation -/

/-- The parsed word list underlying a `generate_layout` input. -/
def wordsOf (input : Except String (List WordItem)) : List WordItem :=
  match input with
  | .error _ => []
  | .ok ws => ws

theorem placeLoop_sublist (opts : CloudOptions) (minW maxW cx cy : ℝ)
    (rands : ℕ → ℝ) :
    ∀ (ws : List WordItem) (g : Grid) (n : ℕ),
      ((placeLoop opts minW maxW cx cy rands g n ws).map
        (fun p => (p.text, p.weight))).Sublist
        (ws.map (fun w => (w.text, w.weight))) := by
  intro ws
  induction ws with
  | nil =>
    intro g n
    simp [placeLoop]
  | cons word rest ih =>
    intro g n
    simp only [placeLoop, List.map_cons]
    split
    next xy hfp =>
      simp only [List.map_cons]
      exact List.Sublist.cons₂ _ (ih _ (n + 1))
    next hfp =>
      exact List.Sublist.cons _ (ih g (n + 1))

/-! ### Concrete scenario -/

theorem spiralPos_zero_a (s : String) (cx cy t : ℝ) :
    spiralPos s cx cy 0 t = (cx, cy) := by
  unfold spiralPos
  split_ifs <;> simp

theorem findPositionForWord_first (opts : CloudOptions) (g : Grid)
    (cx cy ww wh rot : ℝ)
    (hc : checkCollision opts g cx cy ww wh rot = false) :
    findPositionForWord opts g cx cy ww wh rot = some (cx, cy) := by
  unfold findPositionForWord
  rw [show (1000 : ℕ) = 999 + 1 from rfl, findPosGo, spiralPos_zero_a, if_pos hc]

noncomputable def optsDemo : CloudOptions :=
  { width := 800, height := 600, fontFamily := "sans-serif", fontWeight := "normal",
    minSize := 10, maxSize := 60, rotationRange := 0, spiral := "archimedean" }

noncomputable def helloItem : WordItem :=
  { text := "hello", weight := 1, color := none, rotate := none }

noncomputable def helloPlaced : WordPosition :=
  { text := "hello", weight := 1, x := 400, y := 300, rotate := 0,
    color := none, size := some 60 }

theorem checkCollision_demo :
    checkCollision optsDemo (resetGrid optsDemo.width optsDemo.height)
      400 300 (60 * 0.6 * (("hello" : String).utf8ByteSize : ℝ)) 60 0 = false := by
  rw [checkCollision_resetGrid]
  unfold bboxInCanvas
  rw [bboxOf_rot_zero]
  have hutf : (("hello" : String).utf8ByteSize : ℝ) = 5 := by
    norm_num [show ("hello" : String).utf8ByteSize = 5 from rfl]
  rw [hutf]
  refine ⟨?_, ?_, ?_, ?_⟩
  all_goals dsimp only [optsDemo]
  all_goals simp only [le_min_iff, max_le_iff]
  all_goals norm_num

theorem findPos_demo :
    findPositionForWord optsDemo (resetGrid optsDemo.width optsDemo.height)
      400 300 (60 * 0.6 * 5) 60 0 = some (400, 300) := by
  apply findPositionForWord_first
  have hc := checkCollision_demo
  rwa [show (("hello" : String).utf8ByteSize : ℝ) = 5 by
    norm_num [show ("hello" : String).utf8ByteSize = 5 from rfl]] at hc

theorem generateLayoutWords_demo (rands : ℕ → ℝ) :
    generateLayoutWords optsDemo rands [helloItem] = [helloPlaced] := by
  simp only [generateLayoutWords, placeLoop, List.foldl_cons, List.foldl_nil]
  have hw : helloItem.weight = 1 := rfl
  rw [hw, min_self, max_self]
  have hsize : sizeFor optsDemo 1 1 1 = 60 := by
    unfold sizeFor
    rw [if_pos rfl]
    rfl
  rw [hsize]
  have hrot : resolveRotation optsDemo helloItem (rands 0) = 0 := by
    unfold resolveRotation
    dsimp only [helloItem]
    rw [if_neg (by norm_num [optsDemo])]
  rw [hrot]
  have hext1 : (estimateExtent helloItem.text 60).1 = 60 * 0.6 * 5 := by
    unfold estimateExtent
    dsimp only [helloItem]
    norm_num [show ("hello" : String).utf8ByteSize = 5 from rfl]
  have hext2 : (estimateExtent helloItem.text 60).2 = 60 := rfl
  rw [hext1, hext2]
  have hcx : ((optsDemo.width : ℝ)) / 2 = 400 := by norm_num [optsDemo]
  have hcy : ((optsDemo.height : ℝ)) / 2 = 300 := by norm_num [optsDemo]
  rw [hcx, hcy]
  rw [findPos_demo]
  rfl

/-- If an unrotated box fits anywhere in the canvas, it fits at the canvas
center. -/
theorem bboxInCanvas_center_of (opts : CloudOptions) (ww wh x y : ℝ)
    (hb : bboxInCanvas opts x y ww wh 0) :
    bboxInCanvas opts ((opts.width : ℝ) / 2) ((opts.height : ℝ) / 2) ww wh 0 := by
  unfold bboxInCanvas at hb ⊢
  rw [bboxOf_rot_zero] at hb ⊢
  dsimp only at hb ⊢
  obtain ⟨h1, h2, h3, h4⟩ := hb
  rw [le_min_iff] at h1 h3
  rw [max_le_iff] at h2 h4
  obtain ⟨h11, h12⟩ := h1
  obtain ⟨h21, h22⟩ := h2
  obtain ⟨h31, h32⟩ := h3
  obtain ⟨h41, h42⟩ := h4
  exact ⟨le_min_iff.mpr ⟨by linarith, by linarith⟩,
    max_le_iff.mpr ⟨by linarith, by linarith⟩,
    le_min_iff.mpr ⟨by linarith, by linarith⟩,
    max_le_iff.mpr ⟨by linarith, by linarith⟩⟩

/-- In a single-word run whose resolved rotation is 0, any placed label
sits exactly at the canvas center: the first spiral candidate is the
anchor, and if the anchor fails on the empty grid (the box cannot fit)
every other candidate fails too. -/
theorem generateLayoutWords_single_center (opts : CloudOptions) (rands : ℕ → ℝ)
    (w : WordItem)
    (hrot : w.rotate = some 0 ∨ (w.rotate = none ∧ opts.rotationRange = 0)) :
    ∀ p ∈ generateLayoutWords opts rands [w],
      p.x = (opts.width : ℝ) / 2 ∧ p.y = (opts.height : ℝ) / 2 ∧ p.rotate = 0 := by
  intro p hp
  simp only [generateLayoutWords, placeLoop, List.foldl_cons, List.foldl_nil] at hp
  have hrot0 : resolveRotation opts w (rands 0) = 0 := by
    unfold resolveRotation
    rcases hrot with h | ⟨h1, h2⟩
    · rw [h]
    · rw [h1, h2]
      simp
  rw [hrot0] at hp
  split at hp
  next xy hfp =>
    rw [List.mem_singleton] at hp
    by_cases hc : checkCollision opts (resetGrid opts.width opts.height)
        ((opts.width : ℝ) / 2) ((opts.height : ℝ) / 2)
        (estimateExtent w.text (sizeFor opts (min w.weight w.weight)
          (max w.weight w.weight) w.weight)).1
        (estimateExtent w.text (sizeFor opts (min w.weight w.weight)
          (max w.weight w.weight) w.weight)).2 0 = false
    · have hfirst := findPositionForWord_first opts
        (resetGrid opts.width opts.height) _ _ _ _ _ hc
      rw [hfirst] at hfp
      obtain rfl : ((opts.width : ℝ) / 2, (opts.height : ℝ) / 2) = xy :=
        Option.some.inj hfp
      subst hp
      exact ⟨rfl, rfl, rfl⟩
    · exfalso
      have hnone : findPositionForWord opts (resetGrid opts.width opts.height)
          ((opts.width : ℝ) / 2) ((opts.height : ℝ) / 2)
          (estimateExtent w.text (sizeFor opts (min w.weight w.weight)
            (max w.weight w.weight) w.weight)).1
          (estimateExtent w.text (sizeFor opts (min w.weight w.weight)
            (max w.weight w.weight) w.weight)).2 0 = none := by
        rw [findPositionForWord_none_iff]
        intro m _
        by_contra hcontra
        rw [Bool.not_eq_true] at hcontra
        have hbm := (checkCollision_resetGrid opts _ _ _ _ _).mp hcontra
        have hbc := bboxInCanvas_center_of opts _ _ _ _ hbm
        exact hc ((checkCollision_resetGrid opts _ _ _ _ _).mpr hbc)
      rw [hnone] at hfp
      exact Option.noConfusion hfp
  next hfp =>
    simp at hp

noncomputable def bigItem : WordItem :=
  { text := "aaaaaaaaaaaaaaaaaaaaaaaaaaaaaa", weight := 1,
    color := none, rotate := none }

theorem generateLayoutWords_big_empty (rands : ℕ → ℝ) :
    generateLayoutWords optsDemo rands [bigItem] = [] := by
  simp only [generateLayoutWords, placeLoop, List.foldl_cons, List.foldl_nil]
  have hw : bigItem.weight = 1 := rfl
  rw [hw, min_self, max_self]
  have hsize : sizeFor optsDemo 1 1 1 = 60 := by
    unfold sizeFor
    rw [if_pos rfl]
    rfl
  rw [hsize]
  have hrot : resolveRotation optsDemo bigItem (rands 0) = 0 := by
    unfold resolveRotation
    dsimp only [bigItem]
    rw [if_neg (by norm_num [optsDemo])]
  rw [hrot]
  have hext1 : (estimateExtent bigItem.text 60).1 = 60 * 0.6 * 30 := by
    unfold estimateExtent
    dsimp only [bigItem]
    norm_num [show ("aaaaaaaaaaaaaaaaaaaaaaaaaaaaaa" : String).utf8ByteSize = 30 from rfl]
  have hext2 : (estimateExtent bigItem.text 60).2 = 60 := rfl
  rw [hext1, hext2]
  have hcx : ((optsDemo.width : ℝ)) / 2 = 400 := by norm_num [optsDemo]
  have hcy : ((optsDemo.height : ℝ)) / 2 = 300 := by norm_num [optsDemo]
  rw [hcx, hcy]
  have hW : ((optsDemo.width : ℕ) : ℝ) = 800 := by norm_num [optsDemo]
  have hnone : findPositionForWord optsDemo (resetGrid optsDemo.width optsDemo.height)
      400 300 (60 * 0.6 * 30) 60 0 = none := by
    rw [findPositionForWord_none_iff]
    intro m _
    by_contra hcontra
    rw [Bool.not_eq_true] at hcontra
    have hb := (checkCollision_resetGrid optsDemo _ _ _ _ _).mp hcontra
    unfold bboxInCanvas at hb
    rw [bboxOf_rot_zero] at hb
    dsimp only at hb
    obtain ⟨h1, h2, _, _⟩ := hb
    rw [le_min_iff] at h1
    rw [max_le_iff] at h2
    rw [hW] at h2
    obtain ⟨h11, _⟩ := h1
    obtain ⟨_, h22⟩ := h2
    linarith
  rw [hnone]

/-! ### Unrecognized spiral kinds -/

theorem spiralCandidate_other (s : String) (h1 : s ≠ "archimedean")
    (h2 : s ≠ "rectangular") (cx cy : ℝ) (n : ℕ) :
    spiralCandidate s cx cy n = (cx, cy) := by
  unfold spiralCandidate spiralPos
  rw [if_neg h1, if_neg h2]

theorem findPosGo_other (opts : CloudOptions) (g : Grid)
    (cx cy ww wh rot : ℝ) (h1 : opts.spiral ≠ "archimedean")
    (h2 : opts.spiral ≠ "rectangular") :
    ∀ (fuel : ℕ) (a t : ℝ),
      findPosGo opts g cx cy ww wh rot (fuel + 1) a t =
        if checkCollision opts g cx cy ww wh rot = false then some (cx, cy)
        else none := by
  intro fuel
  induction fuel with
  | zero =>
    intro a t
    rw [findPosGo]
    rw [show spiralPos opts.spiral cx cy a t = (cx, cy) by
      unfold spiralPos; rw [if_neg h1, if_neg h2]]
    dsimp only
    rw [show findPosGo opts g cx cy ww wh rot 0
      (nextA opts.spiral a) (t + spiralDt opts.spiral) = none from rfl]
  | succ fuel ih =>
    intro a t
    rw [findPosGo]
    rw [show spiralPos opts.spiral cx cy a t = (cx, cy) by
      unfold spiralPos; rw [if_neg h1, if_neg h2]]
    dsimp only
    rw [ih]
    by_cases hc : checkCollision opts g cx cy ww wh rot = false
    · rw [if_pos hc, if_pos hc]
    · rw [if_neg hc, if_neg hc]

theorem findPositionForWord_other (opts : CloudOptions) (g : Grid)
    (cx cy ww wh rot : ℝ) (h1 : opts.spiral ≠ "archimedean")
    (h2 : opts.spiral ≠ "rectangular") :
    findPositionForWord opts g cx cy ww wh rot =
      if checkCollision opts g cx cy ww wh rot = false then some (cx, cy)
      else none := by
  unfold findPositionForWord
  rw [show (1000 : ℕ) = 999 + 1 from rfl]
  exact findPosGo_other opts g cx cy ww wh rot h1 h2 999 0 0

theorem spiralCandidate_archimedean_one (cx cy : ℝ) :
    spiralCandidate "archimedean" cx cy 1 =
      (cx + 0.1 * Real.cos 0.1, cy + 0.1 * Real.sin 0.1) := by
  unfold spiralCandidate spiralPos spiralA spiralT nextA spiralDt
  rw [if_pos rfl, if_pos rfl]
  rw [if_neg (by decide : ("archimedean" : String) ≠ "rectangular")]
  rw [show spiralA "archimedean" 0 = 0 from rfl,
    show spiralT "archimedean" 0 = 0 from rfl]
  norm_num

theorem sin_point_one_pos : 0 < Real.sin 0.1 := by
  have h3 : (3 : ℝ) < Real.pi := Real.pi_gt_three
  exact Real.sin_pos_of_pos_of_lt_pi (by norm_num) (by linarith)

/-! ### String byte length vs character count -/

theorem utf8ByteSize_go_all_one (l : List Char)
    (h : ∀ c ∈ l, c.utf8Size = 1) :
    String.utf8ByteSize.go l = l.length := by
  induction l with
  | nil => rfl
  | cons c cs ih =>
    show String.utf8ByteSize.go cs + c.utf8Size = cs.length + 1
    rw [ih (fun d hd => h d (List.mem_cons_of_mem c hd))]
    have hc : c.utf8Size = 1 := h c (List.mem_cons_self c cs)
    rw [hc]

theorem utf8ByteSize_eq_length_of_ascii (s : String)
    (h : ∀ c ∈ s.data, c.utf8Size = 1) :
    s.utf8ByteSize = s.length := by
  cases s with
  | mk data => exact utf8ByteSize_go_all_one data h

/-! ### Grid invariant over a sequence of commits -/

/-- The five arguments of one committed `mark_grid_as_occupied` call. -/
structure Placement where
  px : ℝ
  py : ℝ
  pw : ℝ
  ph : ℝ
  prot : ℝ

/-- The grid obtained by a `reset_grid` followed by the commits of `ps`,
in order (exactly the grid states `generate_layout` threads through its
loop, restricted to the placements committed so far). -/
noncomputable def commitAll (opts : CloudOptions) (ps : List Placement) : Grid :=
  ps.foldl (fun g p => markGridAsOccupied g p.px p.py p.pw p.ph p.prot)
    (resetGrid opts.width opts.height)

theorem gridWF_foldl_mark (opts : CloudOptions) :
    ∀ (ps : List Placement) (g : Grid), gridWF opts g →
      gridWF opts (ps.foldl
        (fun g p => markGridAsOccupied g p.px p.py p.pw p.ph p.prot) g) := by
  intro ps
  induction ps with
  | nil => intro g hwf; exact hwf
  | cons p ps ih =>
    intro g hwf
    rw [List.foldl_cons]
    exact ih _ (gridWF_mark opts g hwf _ _ _ _ _)

theorem gridGet_foldl_mark (opts : CloudOptions) :
    ∀ (ps : List Placement) (g : Grid), gridWF opts g → ∀ i j,
      (gridGet (ps.foldl
        (fun g p => markGridAsOccupied g p.px p.py p.pw p.ph p.prot) g) i j = true ↔
        (gridGet g i j = true ∨
          ∃ p ∈ ps, coveredCell opts p.px p.py p.pw p.ph p.prot i j)) := by
  intro ps
  induction ps with
  | nil =>
    intro g _ i j
    simp
  | cons p ps ih =>
    intro g hwf i j
    rw [List.foldl_cons, ih _ (gridWF_mark opts g hwf _ _ _ _ _) i j,
      gridGet_mark opts g hwf _ _ _ _ _ i j]
    constructor
    · rintro ((hg | hc) | ⟨q, hq, hc⟩)
      · exact Or.inl hg
      · exact Or.inr ⟨p, List.mem_cons_self _ _, hc⟩
      · exact Or.inr ⟨q, List.mem_cons_of_mem _ hq, hc⟩
    · rintro (hg | ⟨q, hq, hc⟩)
      · exact Or.inl (Or.inl hg)
      · rcases List.mem_cons.mp hq with heq | hmem
        · subst heq
          exact Or.inl (Or.inr hc)
        · exact Or.inr ⟨q, hmem, hc⟩

theorem gridGet_commitAll (opts : CloudOptions) (ps : List Placement) (i j : ℕ) :
    gridGet (commitAll opts ps) i j = true ↔
      ∃ p ∈ ps, coveredCell opts p.px p.py p.pw p.ph p.prot i j := by
  unfold commitAll
  rw [gridGet_foldl_mark opts ps _ (gridWF_resetGrid opts) i j]
  rw [gridGet_resetGrid]
  simp

/-- Modelled from the spec (and the claim's own words): the cell index
range described there is "integer division of the min/max coordinates by
cell size 4, clamped to `[0, gridWidth-1]` / `[0, gridHeight-1]`" — i.e.
without the extra `+ 1` the code adds to the upper index.  This definition
exists only to be compared against the code's `coveredCell`. -/
noncomputable def specCoveredCell (opts : CloudOptions)
    (x y width height rotation : ℝ) (i j : ℕ) : Prop :=
  let bb := bboxOf x y width height rotation
  let gw := opts.width / gridSize + 1
  let gh := opts.height / gridSize + 1
  min (rustUsize bb.minX / gridSize) (gw - 1) ≤ i ∧
    i ≤ min (rustUsize bb.maxX / gridSize) (gw - 1) ∧
    min (rustUsize bb.minY / gridSize) (gh - 1) ≤ j ∧
    j ≤ min (rustUsize bb.maxY / gridSize) (gh - 1)

/-! ### Panic-freedom of the grid accesses -/

/-- `check_collision` with its partial grid operations made explicit:
on an empty grid the expressions `self.grid.len() - 1` (usize underflow)
and `self.grid[0]` (index out of bounds) panic in Rust; both are modelled
by `none`.  The per-cell reads are bounds-guarded in the source and hence
total. -/
noncomputable def checkCollisionChecked (opts : CloudOptions) (grid : Grid)
    (x y width height rotation : ℝ) : Option Bool :=
  match grid[0]? with
  | none => none
  | some row0 =>
    let bb := bboxOf x y width height rotation
    let rx := gridRange grid.length bb.minX bb.maxX
    let ry := gridRange row0.length bb.minY bb.maxY
    let hit := (rangeIncl rx.1 rx.2).any fun i =>
      (rangeIncl ry.1 ry.2).any fun j => gridGet grid i j
    some (if hit then true
      else if bb.minX < 0 ∨ bb.maxX > (opts.width : ℝ) ∨
          bb.minY < 0 ∨ bb.maxY > (opts.height : ℝ) then true
      else false)

/-- `mark_grid_as_occupied` with the same two partial operations made
explicit; the per-cell writes are bounds-guarded in the source. -/
noncomputable def markGridAsOccupiedChecked (grid : Grid)
    (x y width height rotation : ℝ) : Option Grid :=
  match grid[0]? with
  | none => none
  | some row0 =>
    let bb := bboxOf x y width height rotation
    let rx := gridRange grid.length bb.minX bb.maxX
    let ry := gridRange row0.length bb.minY bb.maxY
    some ((rangeIncl rx.1 rx.2).foldl (fun g i =>
      (rangeIncl ry.1 ry.2).foldl (fun g' j => setCell g' i j) g) grid)

theorem getElem?_zero_of_length_pos (g : Grid) (hg : 1 ≤ g.length) :
    g[0]? = some (g.getD 0 []) := by
  rw [List.getD_eq_getElem?_getD,
    List.getElem?_eq_getElem (show 0 < g.length from hg)]
  rfl

theorem checkCollisionChecked_eq (opts : CloudOptions) (g : Grid)
    (hg : 1 ≤ g.length) (x y width height rotation : ℝ) :
    checkCollisionChecked opts g x y width height rotation =
      some (checkCollision opts g x y width height rotation) := by
  unfold checkCollisionChecked checkCollision
  rw [getElem?_zero_of_length_pos g hg]

theorem markGridAsOccupiedChecked_eq (g : Grid)
    (hg : 1 ≤ g.length) (x y width height rotation : ℝ) :
    markGridAsOccupiedChecked g x y width height rotation =
      some (markGridAsOccupied g x y width height rotation) := by
  unfold markGridAsOccupiedChecked markGridAsOccupied
  rw [getElem?_zero_of_length_pos g hg]

/-- A label whose search fails is skipped with no output entry; the loop
continues with the next label on the unchanged grid. -/
theorem placeLoop_skip (opts : CloudOptions) (minW maxW cx cy : ℝ)
    (rands : ℕ → ℝ) (g : Grid) (n : ℕ) (word : WordItem)
    (rest : List WordItem)
    (hfp : findPositionForWord opts g cx cy
      (estimateExtent word.text (sizeFor opts minW maxW word.weight)).1
      (estimateExtent word.text (sizeFor opts minW maxW word.weight)).2
      (resolveRotation opts word (rands n)) = none) :
    placeLoop opts minW maxW cx cy rands g n (word :: rest) =
      placeLoop opts minW maxW cx cy rands g (n + 1) rest := by
  simp only [placeLoop]
  rw [hfp]

/-! ### Claims -/

/-- C1: every label placed by `generate_layout` lies fully inside the
canvas: the axis-aligned bounding box of its rotated rectangle (from the
returned x, y, rotation and the estimated extent for its stored size) lies
within `[0,width] × [0,height]`; and a candidate whose unclamped bounding
box extends outside the canvas is never accepted by `check_collision`. -/
theorem c1_placed_in_canvas (opts : CloudOptions) (rands : ℕ → ℝ)
    (input : Except String (List WordItem)) :
    (∀ (g : Grid) (x y w h rot : ℝ),
      checkCollision opts g x y w h rot = false →
        bboxInCanvas opts x y w h rot) ∧
    ∀ p ∈ generateLayout opts rands input,
      ∃ sz, p.size = some sz ∧
        bboxInCanvas opts p.x p.y (sz * 0.6 * (p.text.utf8ByteSize : ℝ)) sz
          p.rotate := by
  constructor
  · exact fun g x y w h rot hc => checkCollision_false_inCanvas opts g x y w h rot hc
  · intro p hp
    cases input with
    | error e => simp [generateLayout] at hp
    | ok ws =>
      cases ws with
      | nil => simp [generateLayout, generateLayoutWords] at hp
      | cons w0 rest =>
        simp only [generateLayout, generateLayoutWords] at hp
        have hres := placeLoop_mem opts _ _ _ _ rands (w0 :: rest) _ 0 p
          (gridWF_resetGrid opts) hp
        obtain ⟨hsome, hbox, _⟩ := hres
        obtain ⟨sz, hsz⟩ := Option.isSome_iff_exists.mp hsome
        refine ⟨sz, hsz, ?_⟩
        have hwp : placedW p = sz * 0.6 * (p.text.utf8ByteSize : ℝ) := by
          unfold placedW
          rw [hsz]
          rfl
        have hhp : placedH p = sz := by
          unfold placedH
          rw [hsz]
          rfl
        rw [← hwp, ← hhp]
        exact hbox

/-- Witness for C1: the demo run places "hello", and the theorem yields
its in-canvas bounding box. -/
theorem c1_witness :
    ∃ sz, helloPlaced.size = some sz ∧
      bboxInCanvas optsDemo helloPlaced.x helloPlaced.y
        (sz * 0.6 * (helloPlaced.text.utf8ByteSize : ℝ)) sz helloPlaced.rotate :=
  (c1_placed_in_canvas optsDemo (fun _ => 0) (Except.ok [helloItem])).2
    helloPlaced
    (by rw [show generateLayout optsDemo (fun _ => 0) (Except.ok [helloItem]) =
          [helloPlaced] from generateLayoutWords_demo (fun _ => 0)]
        exact List.mem_singleton.mpr rfl)

/-- C3: the size mapping returns `maxSize` when the weight extremes agree,
otherwise the linear interpolation
`minSize + (weight - minWeight)/(maxWeight - minWeight)·(maxSize - minSize)`,
and under `minSize ≤ maxSize` and `weight ∈ [minWeight, maxWeight]` the
resolved size lies in `[minSize, maxSize]`. -/
theorem c3_size_mapping (opts : CloudOptions) (minW maxW wt : ℝ) :
    (minW = maxW → sizeFor opts minW maxW wt = opts.maxSize) ∧
    (maxW ≠ minW → sizeFor opts minW maxW wt =
      opts.minSize + ((wt - minW) / (maxW - minW)) * (opts.maxSize - opts.minSize)) ∧
    (opts.minSize ≤ opts.maxSize → minW ≤ wt → wt ≤ maxW →
      opts.minSize ≤ sizeFor opts minW maxW wt ∧
        sizeFor opts minW maxW wt ≤ opts.maxSize) :=
  ⟨fun h => sizeFor_uniform opts minW maxW wt h,
   sizeFor_interp opts minW maxW wt,
   fun hle h1 h2 => sizeFor_bounds opts minW maxW wt hle h1 h2⟩

/-- Witness for C3 at the demo configuration with weight 4 in [1, 10]. -/
theorem c3_witness :
    optsDemo.minSize ≤ sizeFor optsDemo 1 10 4 ∧
      sizeFor optsDemo 1 10 4 ≤ optsDemo.maxSize :=
  (c3_size_mapping optsDemo 1 10 4).2.2 (by norm_num [optsDemo])
    (by norm_num) (by norm_num)

/-- C6: `generate_layout` yields the empty result both on parse failure
and on the empty input list; the model is a total function, so no error
value or exception crosses the boundary and no partial data is returned. -/
theorem c6_malformed_or_empty (opts : CloudOptions) (rands : ℕ → ℝ) :
    (∀ e, generateLayout opts rands (Except.error e) = []) ∧
      generateLayout opts rands (Except.ok []) = [] :=
  ⟨fun _ => rfl, rfl⟩

/-- C7: per label at most 1000 spiral candidates are tested (a success is
one of the first 1000 candidates, failure means all 1000 collided and the
label is silently dropped), and the returned sequence is a subsequence of
the input list in caller order. -/
theorem c7_budget_and_order (opts : CloudOptions) (rands : ℕ → ℝ)
    (input : Except String (List WordItem)) :
    ((generateLayout opts rands input).map (fun p => (p.text, p.weight))).Sublist
      ((wordsOf input).map (fun w => (w.text, w.weight))) ∧
    (∀ (g : Grid) (cx cy ww wh rot : ℝ) (xy : ℝ × ℝ),
      findPositionForWord opts g cx cy ww wh rot = some xy →
        ∃ m, m < 1000 ∧ xy = spiralCandidate opts.spiral cx cy m ∧
          checkCollision opts g xy.1 xy.2 ww wh rot = false) ∧
    (∀ (g : Grid) (cx cy ww wh rot : ℝ),
      findPositionForWord opts g cx cy ww wh rot = none ↔
        ∀ m, m < 1000 →
          checkCollision opts g (spiralCandidate opts.spiral cx cy m).1
            (spiralCandidate opts.spiral cx cy m).2 ww wh rot = true) ∧
    (∀ (g : Grid) (n : ℕ) (minW maxW cx cy : ℝ) (word : WordItem)
        (rest : List WordItem),
      findPositionForWord opts g cx cy
          (estimateExtent word.text (sizeFor opts minW maxW word.weight)).1
          (estimateExtent word.text (sizeFor opts minW maxW word.weight)).2
          (resolveRotation opts word (rands n)) = none →
        placeLoop opts minW maxW cx cy rands g n (word :: rest) =
          placeLoop opts minW maxW cx cy rands g (n + 1) rest) := by
  refine ⟨?_, ?_, ?_, ?_⟩
  · cases input with
    | error e => simp [generateLayout, wordsOf]
    | ok ws =>
      cases ws with
      | nil => simp [generateLayout, generateLayoutWords, wordsOf]
      | cons w0 rest =>
        simp only [generateLayout, generateLayoutWords, wordsOf]
        exact placeLoop_sublist opts _ _ _ _ rands (w0 :: rest) _ 0
  · exact fun g cx cy ww wh rot xy h =>
      findPositionForWord_some_cand opts g cx cy ww wh rot xy h
  · exact fun g cx cy ww wh rot =>
      findPositionForWord_none_iff opts g cx cy ww wh rot
  · exact fun g n minW maxW cx cy word rest hfp =>
      placeLoop_skip opts minW maxW cx cy rands g n word rest hfp

/-- Witness for C7: the demo search succeeds, so its result is one of the
first 1000 candidates with a negative collision test. -/
theorem c7_witness :
    ∃ m, m < 1000 ∧
      ((400 : ℝ), (300 : ℝ)) = spiralCandidate optsDemo.spiral 400 300 m ∧
      checkCollision optsDemo (resetGrid optsDemo.width optsDemo.height)
        ((400 : ℝ), (300 : ℝ)).1 ((400 : ℝ), (300 : ℝ)).2
        (60 * 0.6 * 5) 60 0 = false :=
  (c7_budget_and_order optsDemo (fun _ => 0) (Except.ok [helloItem])).2.1
    (resetGrid optsDemo.width optsDemo.height) 400 300 (60 * 0.6 * 5) 60 0
    (400, 300) findPos_demo

/-- C8 counterexample: for the one-character text "é" (two UTF-8 bytes)
the extent estimate disagrees with the character-count formula the claim
states: the code uses `String::len`, the byte length. -/
theorem c8_counterexample :
    estimateExtent "é" 10 ≠ ((10 : ℝ) * 0.6 * (("é" : String).length : ℝ), 10) := by
  intro heq
  have h1 := congrArg Prod.fst heq
  unfold estimateExtent at h1
  dsimp at h1
  rw [show ("é" : String).utf8ByteSize = 2 from rfl,
    show ("é" : String).length = 1 from rfl] at h1
  norm_num at h1

/-- C8 (amended): the extent estimate used for placement is
width = size × 0.6 × (UTF-8 byte length of the text), height = size; for
text whose characters are all single-byte (ASCII) the byte length equals
the character count and the claim's formula is recovered. -/
theorem c8_estimate_extent (text : String) (size : ℝ) :
    estimateExtent text size = (size * 0.6 * (text.utf8ByteSize : ℝ), size) ∧
    ((∀ c ∈ text.data, c.utf8Size = 1) →
      estimateExtent text size = (size * 0.6 * (text.length : ℝ), size)) := by
  refine ⟨rfl, fun h => ?_⟩
  unfold estimateExtent
  rw [utf8ByteSize_eq_length_of_ascii text h]

/-- Witness for C8 on the ASCII text "hello". -/
theorem c8_witness :
    estimateExtent "hello" 10 =
      (10 * 0.6 * ((("hello" : String).length : ℕ) : ℝ), 10) :=
  (c8_estimate_extent "hello" 10).2 (by decide)

/-- The grid holding exactly one committed placement, reconstructed from a
placed label (used to re-run the collision test pairwise). -/
noncomputable def soloGrid (opts : CloudOptions) (p : WordPosition) : Grid :=
  markGridAsOccupied (resetGrid opts.width opts.height)
    p.x p.y (placedW p) (placedH p) p.rotate

/-- C2: for every pair of distinct labels in a `generate_layout` result,
re-running the program's own collision test on either label against a grid
onto which only the other label has been committed reports no collision. -/
theorem c2_no_pairwise_overlap (opts : CloudOptions) (rands : ℕ → ℝ)
    (input : Except String (List WordItem)) :
    (generateLayout opts rands input).Pairwise (fun p q =>
      checkCollision opts (soloGrid opts q) p.x p.y (placedW p) (placedH p)
        p.rotate = false ∧
      checkCollision opts (soloGrid opts p) q.x q.y (placedW q) (placedH q)
        q.rotate = false) := by
  cases input with
  | error e => simp [generateLayout]
  | ok ws =>
    cases ws with
    | nil => simp [generateLayout, generateLayoutWords]
    | cons w0 rest =>
      simp only [generateLayout, generateLayoutWords]
      have hpair := placeLoop_pairwise opts
        ((w0 :: rest).foldl (fun m w => min m w.weight) w0.weight)
        ((w0 :: rest).foldl (fun m w => max m w.weight) w0.weight)
        ((opts.width : ℝ) / 2) ((opts.height : ℝ) / 2) rands (w0 :: rest)
        (resetGrid opts.width opts.height) 0 (gridWF_resetGrid opts)
      refine List.Pairwise.imp_of_mem ?_ hpair
      intro p q hp hq hsep
      have hmp := placeLoop_mem opts _ _ _ _ rands (w0 :: rest) _ 0 p
        (gridWF_resetGrid opts) hp
      have hmq := placeLoop_mem opts _ _ _ _ rands (w0 :: rest) _ 0 q
        (gridWF_resetGrid opts) hq
      have hwfq : gridWF opts (soloGrid opts q) :=
        gridWF_mark opts _ (gridWF_resetGrid opts) _ _ _ _ _
      have hwfp : gridWF opts (soloGrid opts p) :=
        gridWF_mark opts _ (gridWF_resetGrid opts) _ _ _ _ _
      constructor
      · rw [checkCollision_eq_false_iff opts _ hwfq]
        refine ⟨?_, hmp.2.1⟩
        intro i j hcov
        rw [Bool.eq_false_iff]
        intro htrue
        unfold soloGrid at htrue
        rw [gridGet_mark opts _ (gridWF_resetGrid opts) _ _ _ _ _ i j] at htrue
        rcases htrue with hg | hcq
        · rw [gridGet_resetGrid] at hg
          exact Bool.noConfusion hg
        · exact hsep i j ⟨hcov, hcq⟩
      · rw [checkCollision_eq_false_iff opts _ hwfp]
        refine ⟨?_, hmq.2.1⟩
        intro i j hcov
        rw [Bool.eq_false_iff]
        intro htrue
        unfold soloGrid at htrue
        rw [gridGet_mark opts _ (gridWF_resetGrid opts) _ _ _ _ _ i j] at htrue
        rcases htrue with hg | hcp
        · rw [gridGet_resetGrid] at hg
          exact Bool.noConfusion hg
        · exact hsep i j ⟨hcp, hcov⟩

/-- C4 counterexample: with the unrecognized spiral kind "foo" the second
candidate is the anchor itself, while the archimedean second candidate is
displaced by `0.1·(cos 0.1, sin 0.1)`; the candidate sequences differ, so
an unrecognized kind does not fall back to archimedean. -/
theorem c4_counterexample :
    spiralCandidate "foo" 0 0 1 ≠ spiralCandidate "archimedean" 0 0 1 := by
  rw [spiralCandidate_other "foo" (by decide) (by decide) 0 0 1,
    spiralCandidate_archimedean_one 0 0]
  intro heq
  have h2 := congrArg Prod.snd heq
  dsimp at h2
  have hs := sin_point_one_pos
  nlinarith [hs]

/-- C4 (amended): an unrecognized spiral kind does not fall back to the
archimedean spiral.  The `if/else if` chain skips both offset updates, so
every candidate equals the anchor and the search degenerates to testing
the anchor: it returns the anchor if the anchor is free and fails
otherwise. -/
theorem c4_unrecognized_spiral_at_anchor (opts : CloudOptions)
    (h1 : opts.spiral ≠ "archimedean") (h2 : opts.spiral ≠ "rectangular") :
    (∀ (cx cy : ℝ) (n : ℕ), spiralCandidate opts.spiral cx cy n = (cx, cy)) ∧
    (∀ (g : Grid) (cx cy ww wh rot : ℝ),
      findPositionForWord opts g cx cy ww wh rot =
        if checkCollision opts g cx cy ww wh rot = false then some (cx, cy)
        else none) :=
  ⟨fun cx cy n => spiralCandidate_other opts.spiral h1 h2 cx cy n,
   fun g cx cy ww wh rot =>
     findPositionForWord_other opts g cx cy ww wh rot h1 h2⟩

noncomputable def optsFoo : CloudOptions := { optsDemo with spiral := "foo" }

/-- Witness for C4 at the spiral kind "foo". -/
theorem c4_witness : spiralCandidate optsFoo.spiral 7 9 5 = (7, 9) :=
  (c4_unrecognized_spiral_at_anchor optsFoo (by decide) (by decide)).1 7 9 5

/-- C5 counterexample: a single 30-byte label at the demo configuration is
too wide for the canvas (estimated width 1080 > 800), every spiral
candidate fails the boundary test, and the run returns the empty layout —
the label is not placed at the center (nor anywhere), refuting the claim's
unconditional "is placed at width/2, height/2". -/
theorem c5_counterexample :
    generateLayoutWords optsDemo (fun _ => 0) [bigItem] = [] ∧
      ¬∃ p ∈ generateLayoutWords optsDemo (fun _ => 0) [bigItem],
        p.x = (optsDemo.width : ℝ) / 2 ∧ p.y = (optsDemo.height : ℝ) / 2 := by
  refine ⟨generateLayoutWords_big_empty _, ?_⟩
  rw [generateLayoutWords_big_empty]
  rintro ⟨p, hp, _⟩
  exact (List.not_mem_nil p) hp

/-- C5 (amended): in a single-label run with an explicit rotate 0 override
(or no override and rotationRange 0), every label that is placed sits
exactly at the canvas center (an oversized label is silently omitted
instead); and the concrete scenario holds: width 800, height 600,
minSize 10, maxSize 60 with input [{text "hello", weight 1}] yields
[{text "hello", weight 1, x 400, y 300, rotate 0, size 60}]. -/
theorem c5_single_label_center (opts : CloudOptions) (rands rands2 : ℕ → ℝ)
    (w : WordItem)
    (hrot : w.rotate = some 0 ∨ (w.rotate = none ∧ opts.rotationRange = 0)) :
    (∀ p ∈ generateLayoutWords opts rands [w],
      p.x = (opts.width : ℝ) / 2 ∧ p.y = (opts.height : ℝ) / 2 ∧
        p.rotate = 0) ∧
    generateLayoutWords optsDemo rands2 [helloItem] = [helloPlaced] :=
  ⟨generateLayoutWords_single_center opts rands w hrot,
   generateLayoutWords_demo rands2⟩

/-- Witness for C5 at the demo scenario. -/
theorem c5_witness :
    (∀ p ∈ generateLayoutWords optsDemo (fun _ => 0) [helloItem],
      p.x = (optsDemo.width : ℝ) / 2 ∧ p.y = (optsDemo.height : ℝ) / 2 ∧
        p.rotate = 0) ∧
    generateLayoutWords optsDemo (fun _ => 0) [helloItem] = [helloPlaced] :=
  c5_single_label_center optsDemo (fun _ => 0) (fun _ => 0) helloItem
    (Or.inr ⟨rfl, rfl⟩)

noncomputable def opts16 : CloudOptions :=
  { width := 16, height := 16, fontFamily := "sans-serif", fontWeight := "normal",
    minSize := 10, maxSize := 60, rotationRange := 0, spiral := "archimedean" }

theorem min_bbox16 : min ((2 : ℝ) - 4 / 2) (2 + 4 / 2) = 0 := by
  norm_num [min_def]

theorem max_bbox16 : max ((2 : ℝ) - 4 / 2) (2 + 4 / 2) = 4 := by
  norm_num [max_def]

theorem rustUsize_zero : rustUsize 0 = 0 := by
  unfold rustUsize
  norm_num

theorem rustUsize_four : rustUsize 4 = 4 := by
  unfold rustUsize
  norm_num
  decide

theorem coveredCell_c9_demo : coveredCell opts16 2 2 4 4 0 2 0 := by
  unfold coveredCell
  rw [bboxOf_rot_zero]
  dsimp only
  unfold gridRange
  rw [min_bbox16, max_bbox16, rustUsize_zero, rustUsize_four]
  dsimp only [opts16, gridSize]
  norm_num

theorem not_specCoveredCell_c9_demo : ¬ specCoveredCell opts16 2 2 4 4 0 2 0 := by
  intro h
  unfold specCoveredCell at h
  rw [bboxOf_rot_zero] at h
  dsimp only at h
  rw [min_bbox16, max_bbox16, rustUsize_zero, rustUsize_four] at h
  dsimp only [opts16, gridSize] at h
  obtain ⟨_, h2, _, _⟩ := h
  norm_num at h2

/-- C9 counterexample: on a 16×16 canvas (grid 5×5) a committed placement
centred at (2,2) with a 4×4 unrotated box has bounding box [0,4]×[0,4].
The code marks cells up to index `4/4 + 1 = 2`, so cell (2,0) is true,
yet under the claim's mapping — plain integer division clamped, i.e.
upper index `4/4 = 1` — no committed box covers that cell. -/
theorem c9_counterexample :
    gridGet (commitAll opts16 [⟨2, 2, 4, 4, 0⟩]) 2 0 = true ∧
      ¬ specCoveredCell opts16 2 2 4 4 0 2 0 :=
  ⟨(gridGet_commitAll opts16 [⟨2, 2, 4, 4, 0⟩] 2 0).mpr
      ⟨⟨2, 2, 4, 4, 0⟩, List.mem_singleton.mpr rfl, coveredCell_c9_demo⟩,
   not_specCoveredCell_c9_demo⟩

/-- C9 (amended): the grid is rebuilt all-false with dimensions
(width/4 + 1) × (height/4 + 1) at the start of every run, and after any
sequence of commits a cell is true iff some committed placement's bounding
box covers it — where the covered index interval on each axis is
`[min/4, min(max/4 + 1, dim − 1)]`: the code widens the upper index by one
cell beyond the plain integer division the claim describes. -/
theorem c9_grid_invariant (opts : CloudOptions) :
    (∀ w h : ℕ, (resetGrid w h).length = w / gridSize + 1 ∧
      ((resetGrid w h).getD 0 []).length = h / gridSize + 1 ∧
      ∀ i j, gridGet (resetGrid w h) i j = false) ∧
    ∀ (ps : List Placement) (i j : ℕ),
      gridGet (commitAll opts ps) i j = true ↔
        ∃ p ∈ ps, coveredCell opts p.px p.py p.pw p.ph p.prot i j := by
  constructor
  · intro w h
    refine ⟨length_resetGrid w h, ?_, gridGet_resetGrid w h⟩
    unfold resetGrid
    rw [getD_replicate, if_pos (Nat.succ_pos _)]
    simp
  · exact fun ps i j => gridGet_commitAll opts ps i j

/-- C10: the grid always has at least one row and one column for every
canvas configuration, and on any such non-empty grid both
`check_collision` and `mark_grid_as_occupied` are total: their partial
operations (the `grid[0]` index, the `len - 1` subtraction, and the
bounds-guarded cell accesses) cannot panic, for every real centre,
extent and rotation — including negative and out-of-canvas ones; marking
moreover preserves the row count, so the property is maintained across a
run. -/
theorem c10_no_panic (opts : CloudOptions) :
    (∀ w h : ℕ, 1 ≤ (resetGrid w h).length ∧
      1 ≤ ((resetGrid w h).getD 0 []).length) ∧
    ∀ (g : Grid), 1 ≤ g.length → ∀ (x y width height rotation : ℝ),
      checkCollisionChecked opts g x y width height rotation =
        some (checkCollision opts g x y width height rotation) ∧
      markGridAsOccupiedChecked g x y width height rotation =
        some (markGridAsOccupied g x y width height rotation) ∧
      1 ≤ (markGridAsOccupied g x y width height rotation).length := by
  constructor
  · intro w h
    constructor
    · rw [length_resetGrid]
      exact Nat.succ_pos _
    · unfold resetGrid
      rw [getD_replicate, if_pos (Nat.succ_pos _), List.length_replicate]
      exact Nat.succ_pos _
  · intro g hg x y width height rotation
    refine ⟨checkCollisionChecked_eq opts g hg x y width height rotation,
      markGridAsOccupiedChecked_eq g hg x y width height rotation, ?_⟩
    unfold markGridAsOccupied
    rw [length_foldl_setCellGrid]
    exact hg

/-- Witness for C10 on a concrete small grid. -/
theorem c10_witness :
    1 ≤ (resetGrid 4 4).length ∧
      checkCollisionChecked optsDemo (resetGrid 4 4) 1 1 1 1 0 =
        some (checkCollision optsDemo (resetGrid 4 4) 1 1 1 1 0) ∧
      markGridAsOccupiedChecked (resetGrid 4 4) 1 1 1 1 0 =
        some (markGridAsOccupied (resetGrid 4 4) 1 1 1 1 0) :=
  ⟨by decide,
   ((c10_no_panic optsDemo).2 (resetGrid 4 4) (by decide) 1 1 1 1 0).1,
   ((c10_no_panic optsDemo).2 (resetGrid 4 4) (by decide) 1 1 1 1 0).2.1⟩
